import Mathlib

/-!
Verification development for the 3D shape retrieval database
(INFOMMR2023-3D-Shape-Retrieval-Database).

The Python sources are shallowly embedded in Lean:
- float values are modeled as exact rationals (`ℚ`) where the code only
  performs field arithmetic, and as reals (`ℝ`) where the code takes
  square roots (`np.sqrt`, `np.linalg.norm`);
- Python dicts are modeled as association lists in insertion order
  (`dictInsert` replaces the value of an existing key in place, which is
  exactly Python's dict-assignment semantics);
- Python exceptions (`exit()`, `KeyError`, `ZeroDivisionError`,
  `IndexError`) are modeled with `Except String`;
- external collaborators (trimesh decimation/subdivision, the ANN index)
  are taken as function parameters, following the spec's scope section.
-/

/-! ## Data model: `ShapeDescriptors` (src/tools/descriptor_extraction.py)

Only the fields and methods consumed by the distance/matching/evaluation
pipeline are embedded: the six normalized single features and the five
histogram features.  Histograms and normalized singles are rational
(floats modeled exactly). -/

structure ShapeDescriptors where
  surface_area_normalized : ℚ
  compactness_normalized : ℚ
  rectangularity_normalized : ℚ
  diameter_normalized : ℚ
  convexity_normalized : ℚ
  eccentricity_normalized : ℚ
  A3 : List ℚ
  D1 : List ℚ
  D2 : List ℚ
  D3 : List ℚ
  D4 : List ℚ
deriving DecidableEq

/-- Embeds `ShapeDescriptors.get_weighted_normalized_features`
(descriptor_extraction.py lines 455-474): each single feature is weighted
0.015, the histograms are weighted 0.225 (A3), 0.12 (D1), 0.18 (D2),
0.185 (D3) and 0.2 (D4). -/
def ShapeDescriptors.get_weighted_normalized_features (d : ShapeDescriptors) : List ℚ :=
  [d.surface_area_normalized * 0.015,
   d.compactness_normalized * 0.015,
   d.rectangularity_normalized * 0.015,
   d.diameter_normalized * 0.015,
   d.convexity_normalized * 0.015,
   d.eccentricity_normalized * 0.015]
  ++ d.A3.map (fun x => x * 0.225)
  ++ d.D1.map (fun x => x * 0.12)
  ++ d.D2.map (fun x => x * 0.18)
  ++ d.D3.map (fun x => x * 0.185)
  ++ d.D4.map (fun x => x * 0.2)

/-- Embeds `ShapeDescriptors.get_normalized_single_features`
(descriptor_extraction.py lines 476-487). -/
def ShapeDescriptors.get_normalized_single_features (d : ShapeDescriptors) : List ℚ :=
  [d.surface_area_normalized,
   d.compactness_normalized,
   d.rectangularity_normalized,
   d.diameter_normalized,
   d.convexity_normalized,
   d.eccentricity_normalized]

/-- Embeds `ShapeDescriptors.get_normalized_histogram_features`
(descriptor_extraction.py lines 489-502): concatenation of the five
histograms. -/
def ShapeDescriptors.get_normalized_histogram_features (d : ShapeDescriptors) : List ℚ :=
  d.A3 ++ d.D1 ++ d.D2 ++ d.D3 ++ d.D4

/-! ## Distance engine (src/scenes/scene_utils.py) -/

/-- Embeds `euclidean_distance` (scene_utils.py lines 113-121):
`np.sqrt(np.sum((x1 - x2) ** 2))`.  The elementwise difference is modeled
by zipping; in all call sites the two feature vectors have equal length. -/
noncomputable def euclidean_distance (x1 x2 : List ℚ) : ℝ :=
  Real.sqrt ((((x1.zip x2).map (fun p => (p.1 - p.2) ^ 2)).sum : ℚ))

/-- Dot product `np.dot(x1, x2)` over the common prefix of the vectors. -/
def dotProduct (x1 x2 : List ℚ) : ℚ :=
  ((x1.zip x2).map (fun p => p.1 * p.2)).sum

/-- Euclidean norm `np.linalg.norm(x)`. -/
noncomputable def vectorNorm (x : List ℚ) : ℝ :=
  Real.sqrt ((x.map (fun v => v ^ 2)).sum : ℚ)

/-- Embeds `cosine_distance` (scene_utils.py lines 124-141):
`1 - dot(x1,x2) / (norm(x1) * norm(x2))`.  (For zero-norm inputs NumPy
produces a non-finite value; Lean's total division returns the junk value
0 there.  No claim depends on the zero-norm case.) -/
noncomputable def cosine_distance (x1 x2 : List ℚ) : ℝ :=
  1 - (dotProduct x1 x2 : ℝ) / (vectorNorm x1 * vectorNorm x2)

/-- Accumulator recursion of `earth_movers_distance` (scene_utils.py lines
144-161): `ac` and `bc` are the running cumulative sums, and each step
adds `abs(ac - bc)`.  The Python loop runs over indices `0..len(x1)-1`;
for equal-length inputs (the only case the code exercises and the spec
covers) this simultaneous recursion is exact. -/
def emdGo : List ℚ → List ℚ → ℚ → ℚ → ℚ
  | a :: as, b :: bs, ac, bc => |ac + a - (bc + b)| + emdGo as bs (ac + a) (bc + b)
  | _, _, _, _ => 0

/-- Embeds `earth_movers_distance` (scene_utils.py lines 144-161). -/
def earth_movers_distance (x1 x2 : List ℚ) : ℚ :=
  emdGo x1 x2 0 0

/-- The claim-side formula for the 1-D EMD: the L1 difference of running
cumulative sums, `sum_i |cumsum(x1)_i - cumsum(x2)_i|` (spec section 4.4). -/
def emdCumulative (x1 x2 : List ℚ) : ℚ :=
  ∑ i ∈ Finset.range x1.length, |(x1.take (i + 1)).sum - (x2.take (i + 1)).sum|

/-! ## Python dict model -/

/-- Python dict assignment `d[k] = v`: replaces the value of an existing
key in place (keeping its position) or appends a new entry. -/
def dictInsert {α : Type} (k : String) (v : α) : List (String × α) → List (String × α)
  | [] => [(k, v)]
  | (k', v') :: rest => if k' = k then (k', v) :: rest else (k', v') :: dictInsert k v rest

/-- Python `d[k] += v` guarded by `if k in d` (as written in
`evaluate_query`, scene_utils.py lines 374-379): adds to an existing
entry in place, otherwise appends the new entry. -/
def dictAdd (k : String) (v : ℚ) : List (String × ℚ) → List (String × ℚ)
  | [] => [(k, v)]
  | (k', v') :: rest => if k' = k then (k', v' + v) :: rest else (k', v') :: dictAdd k v rest

/-- Python dict lookup `d[k]` / membership search: first entry with the key. -/
def lookupFirst {α : Type} (k : String) : List (String × α) → Option α
  | [] => none
  | (k', v) :: rest => if k' = k then some v else lookupFirst k rest

/-- Python `d.get(k, default)`. -/
def lookupD {α : Type} (k : String) (l : List (String × α)) (default : α) : α :=
  match lookupFirst k l with
  | some v => v
  | none => default

/-! ## Matching (get_best_matching_shapes, scene_utils.py lines 164-265) -/

/-- The body of the `if/elif` metric dispatch inside the candidate loop of
`get_best_matching_shapes` (scene_utils.py lines 177-259), factored out
per candidate: it returns the distance value assigned to
`distances[model_name]`, or `none` when the metric string matches no
branch (in which case the Python loop assigns nothing for the candidate). -/
noncomputable def candidateDistance (distance_metric : String)
    (current_mesh mesh : ShapeDescriptors) : Option ℝ :=
  if distance_metric = "Euclidean" then
    some (euclidean_distance current_mesh.get_weighted_normalized_features
      mesh.get_weighted_normalized_features)
  else if distance_metric = "Cosine" then
    some (cosine_distance current_mesh.get_weighted_normalized_features
      mesh.get_weighted_normalized_features)
  else if distance_metric = "EMD" then
    some ((earth_movers_distance current_mesh.get_weighted_normalized_features
      mesh.get_weighted_normalized_features : ℚ) : ℝ)
  else if distance_metric = "Euclidean (Single) + EMD (Histogram)" then
    some (euclidean_distance current_mesh.get_normalized_single_features
        mesh.get_normalized_single_features * 0.5
      + (earth_movers_distance current_mesh.get_normalized_histogram_features
        mesh.get_normalized_histogram_features : ℚ) * 0.5)
  else if distance_metric = "Euclidean (Single) + Cosine (Histogram)" then
    some (euclidean_distance current_mesh.get_normalized_single_features
        mesh.get_normalized_single_features * 0.04
      + cosine_distance current_mesh.get_normalized_histogram_features
        mesh.get_normalized_histogram_features * 0.96)
  else if distance_metric = "Cosine (Single) + EMD (Histogram)" then
    some (cosine_distance current_mesh.get_normalized_single_features
        mesh.get_normalized_single_features * 0.5
      + (earth_movers_distance current_mesh.get_normalized_histogram_features
        mesh.get_normalized_histogram_features : ℚ) * 0.5)
  else if distance_metric = "Cosine (Single) + Euclidean (Histogram)" then
    some (cosine_distance current_mesh.get_normalized_single_features
        mesh.get_normalized_single_features * 0.4
      + euclidean_distance current_mesh.get_normalized_histogram_features
        mesh.get_normalized_histogram_features * 0.6)
  else if distance_metric = "EMD (Single) + Euclidean (Histogram)" then
    some ((earth_movers_distance current_mesh.get_normalized_single_features
        mesh.get_normalized_single_features : ℚ) * 0.03
      + euclidean_distance current_mesh.get_normalized_histogram_features
        mesh.get_normalized_histogram_features * 0.97)
  else if distance_metric = "EMD (Single) + Cosine (Histogram)" then
    some ((earth_movers_distance current_mesh.get_normalized_single_features
        mesh.get_normalized_single_features : ℚ) * 0.01
      + cosine_distance current_mesh.get_normalized_histogram_features
        mesh.get_normalized_histogram_features * 0.99)
  else none

/-- The closed set of metric identifiers recognized by the dispatch. -/
def validMetrics : List String :=
  ["Euclidean", "Cosine", "EMD",
   "Euclidean (Single) + EMD (Histogram)",
   "Euclidean (Single) + Cosine (Histogram)",
   "Cosine (Single) + EMD (Histogram)",
   "Cosine (Single) + Euclidean (Histogram)",
   "EMD (Single) + Euclidean (Histogram)",
   "EMD (Single) + Cosine (Histogram)"]

/-- Total version of the candidate distance, defaulting to 0; for
recognized metrics it agrees with `candidateDistance` (see
`candidateDistance_eq_some`). -/
noncomputable def candidateDistanceD (distance_metric : String)
    (current_mesh mesh : ShapeDescriptors) : ℝ :=
  (candidateDistance distance_metric current_mesh mesh).getD 0

/-- One candidate-loop iteration of `get_best_matching_shapes`: assign
`distances[model_name] = <dispatched distance>` when the metric is
recognized, leave the dict unchanged otherwise. -/
noncomputable def gbmsStep (distance_metric : String) (current_mesh : ShapeDescriptors)
    (d : List (String × ℝ)) (p : String × ShapeDescriptors) : List (String × ℝ) :=
  match candidateDistance distance_metric current_mesh p.2 with
  | some v => dictInsert p.1 v d
  | none => d

/-- The `distances` dict built by the candidate loop of
`get_best_matching_shapes` (scene_utils.py lines 175-259). -/
noncomputable def gbmsDistances (distance_metric : String) (current_mesh : ShapeDescriptors)
    (all_meshes : List (String × ShapeDescriptors)) : List (String × ℝ) :=
  all_meshes.foldl (gbmsStep distance_metric current_mesh) []

/-- Embeds `get_best_matching_shapes` (scene_utils.py lines 164-265):
builds the `distances` dict, sorts its items by distance, returns the
first `num_neighbors` names together with the list of ALL dict values
(the second component is taken from the unsorted dict, not from
`sorted_distances`). -/
noncomputable def get_best_matching_shapes (current_mesh : ShapeDescriptors)
    (all_meshes : List (String × ShapeDescriptors)) (num_neighbors : ℕ)
    (distance_metric : String) : List String × List ℝ :=
  let distances := gbmsDistances distance_metric current_mesh all_meshes
  let sorted_distances := distances.mergeSort (fun p q => decide (p.2 ≤ q.2))
  let best_matching_shapes := (sorted_distances.take num_neighbors).map Prod.fst
  (best_matching_shapes, distances.map Prod.snd)

/-- The Custom-mode query of `evaluate_query` (scene_utils.py lines
357-360): the candidate set is the corpus without the query shape
(`{key: value for key, value in all_shapes.items() if key != name}`). -/
noncomputable def customMatches (all_shapes : List (String × ShapeDescriptors))
    (name : String) (descriptor : ShapeDescriptors) (k : ℕ)
    (distance_metric : String) : List String :=
  (get_best_matching_shapes descriptor
    (all_shapes.filter (fun p => p.1 != name)) k distance_metric).1

/-! ## Evaluation scoring (scene_utils.py lines 268-406) -/

/-- The correct-class search shared by `calculate_precision` and
`calculate_recall` (scene_utils.py lines 294-298 and 319-323): the first
class whose member list contains the query name. -/
def findCorrectClass (name : String) : List (String × List String) → Option String
  | [] => none
  | (key, values) :: rest =>
    if name ∈ values then some key else findCorrectClass name rest

/-- Number of matched shapes belonging to the given class member list
(the `tp` counter of the scoring loops). -/
def countMatched (matched_shapes values : List String) : ℕ :=
  (matched_shapes.filter (fun m => decide (m ∈ values))).length

/-- Embeds `calculate_precision` (scene_utils.py lines 284-307).  Note the
Python truthiness test `if correct_class:`: a class found under the empty
string name is treated like no class at all. -/
def calculate_precision (name : String) (matched_shapes : List String)
    (all_classes : List (String × List String)) : ℚ × String :=
  match findCorrectClass name all_classes with
  | some correct_class =>
    if correct_class = "" then (0, "")
    else
      let values := lookupD correct_class all_classes []
      let tp : ℕ := countMatched matched_shapes values
      let fp : ℕ := matched_shapes.length - tp
      (if tp + fp > 0 then (tp : ℚ) / ((tp + fp : ℕ) : ℚ) else 0, correct_class)
  | none => (0, "")

/-- Embeds `calculate_recall` (scene_utils.py lines 310-330): `fn` is
`len(all_classes.get(correct_class, [])) - tp`, which can be negative in
Python (matched shapes may repeat), hence the integer model. -/
def calculate_recall (name : String) (matched_shapes : List String)
    (all_classes : List (String × List String)) : ℚ × String :=
  match findCorrectClass name all_classes with
  | some correct_class =>
    if correct_class = "" then (0, "")
    else
      let values := lookupD correct_class all_classes []
      let tp : ℤ := countMatched matched_shapes values
      let fn : ℤ := (values.length : ℤ) - tp
      (if tp + fn > 0 then (tp : ℚ) / ((tp + fn : ℤ) : ℚ) else 0, correct_class)
  | none => (0, "")

/-- The standard per-class F1 step of `evaluate_query` (scene_utils.py
lines 399-404): iterates over the entries of the `precisions` dict,
looks the class up in the `recalls` dict (a missing key is Python's
`KeyError`), and assigns `2*p*r/(p+r)` (or 0) into the `f1_scores` dict. -/
def f1Loop (recalls : List (String × ℚ)) :
    List (String × ℚ) → List (String × ℚ) → Except String (List (String × ℚ))
  | [], f1_scores => Except.ok f1_scores
  | (c, p) :: rest, f1_scores =>
    match lookupFirst c recalls with
    | some r =>
      f1Loop recalls rest
        (dictInsert c (if p + r > 0 then 2 * p * r / (p + r) else 0) f1_scores)
    | none => Except.error "KeyError"

/-- The per-class averaging step of `evaluate_query` (scene_utils.py
lines 382-384): `precisions[c] /= shapes_per_class[c]` and likewise for
recalls; a class absent from a dict raises `KeyError`, a zero count
raises `ZeroDivisionError`. -/
def divideByClassCounts (shapes_per_class : List (String × ℕ))
    (precisions recalls : List (String × ℚ)) :
    Except String (List (String × ℚ) × List (String × ℚ)) :=
  shapes_per_class.foldlM
    (fun st entry =>
      match lookupFirst entry.1 st.1, lookupFirst entry.1 st.2 with
      | some p, some r =>
        if entry.2 = 0 then Except.error "ZeroDivisionError"
        else Except.ok (dictInsert entry.1 (p / (entry.2 : ℚ)) st.1,
          dictInsert entry.1 (r / (entry.2 : ℚ)) st.2)
      | _, _ => Except.error "KeyError")
    (precisions, recalls)

/-- Embeds the aggregation stage of `evaluate_query` (scene_utils.py lines
381-406), taking the state accumulated by the per-query loop: the summed
per-class dicts, the overall sums, and the corpus size.  Mirrors the
source statement for statement: per-class averaging, overall averages,
the `2*avgP*avgP/(avgP+avgR)` assignment for the "Average" key, then the
`for shape_class in precisions.keys()` pass that writes the standard
`2*p*r/(p+r)` formula for every key of `precisions` — a pass that also
visits "Average" (inserted just before) and therefore overwrites its F1. -/
def aggregate_scores (precisions recalls : List (String × ℚ)) (sumP sumR : ℚ)
    (n : ℕ) (shapes_per_class : List (String × ℕ)) :
    Except String
      (List (String × ℚ) × List (String × ℚ) × List (String × ℚ)) :=
  match divideByClassCounts shapes_per_class precisions recalls with
  | Except.error e => Except.error e
  | Except.ok divided =>
    if n = 0 then Except.error "ZeroDivisionError"
    else
      let average_precision := sumP / (n : ℚ)
      let average_recall := sumR / (n : ℚ)
      let precision_sum_recall := average_recall + average_precision
      let f1_score :=
        if precision_sum_recall > 0 then
          2 * average_precision * average_precision / precision_sum_recall
        else 0
      let precisions2 := dictInsert "Average" average_precision divided.1
      let recalls2 := dictInsert "Average" average_recall divided.2
      let f1_init := dictInsert "Average" f1_score []
      match f1Loop recalls2 precisions2 f1_init with
      | Except.error e => Except.error e
      | Except.ok f1_scores => Except.ok (precisions2, recalls2, f1_scores)

/-- The ANN branch of `evaluate_query` (scene_utils.py lines 361-363): the
external index is queried with `k+1`, the first hit (the query itself) is
dropped, and the remaining positions are mapped back to shape names via
the corpus key order (an out-of-range position is Python's `IndexError`). -/
def annMatches (index_query : List ℚ → ℕ → List ℕ)
    (all_shapes : List (String × ShapeDescriptors)) (k : ℕ)
    (descriptor : ShapeDescriptors) : Except String (List String) :=
  ((index_query descriptor.get_weighted_normalized_features (k + 1)).drop 1).mapM
    (fun i =>
      match (all_shapes.map Prod.fst)[i]? with
      | some nm => Except.ok nm
      | none => Except.error "IndexError: list index out of range")

/-- The per-query loop body of `evaluate_query` (scene_utils.py lines
354-379): dispatch on the query type ("Custom" / "ANN"; anything else
prints a message and calls `exit()`, modeled as an error), then update
the per-class sums and the overall accumulators. -/
noncomputable def evaluateQueryStep (query_type : String)
    (all_shapes : List (String × ShapeDescriptors)) (k : ℕ)
    (all_classes : List (String × List String))
    (index_query : List ℚ → ℕ → List ℕ) (distance_metric : String)
    (st : List (String × ℚ) × List (String × ℚ) × ℚ × ℚ)
    (shape : String × ShapeDescriptors) :
    Except String (List (String × ℚ) × List (String × ℚ) × ℚ × ℚ) := do
  let matching_names ←
    if query_type = "Custom" then
      Except.ok (customMatches all_shapes shape.1 shape.2 k distance_metric)
    else if query_type = "ANN" then
      annMatches index_query all_shapes k shape.2
    else
      Except.error ("No implementation for the query type: " ++ query_type)
  let pc := calculate_precision shape.1 matching_names all_classes
  let rc := calculate_recall shape.1 matching_names all_classes
  Except.ok (dictAdd pc.2 pc.1 st.1, dictAdd pc.2 rc.1 st.2.1,
    st.2.2.1 + pc.1, st.2.2.2 + rc.1)

/-- Embeds `evaluate_query` (scene_utils.py lines 333-406): the per-query
loop followed by the aggregation stage. -/
noncomputable def evaluate_query (query_type : String)
    (all_shapes : List (String × ShapeDescriptors)) (k : ℕ)
    (shapes_per_class : List (String × ℕ))
    (all_classes : List (String × List String))
    (index_query : List ℚ → ℕ → List ℕ) (distance_metric : String) :
    Except String
      (List (String × ℚ) × List (String × ℚ) × List (String × ℚ)) := do
  let st ← all_shapes.foldlM
    (evaluateQueryStep query_type all_shapes k all_classes index_query distance_metric)
    ([], [], 0, 0)
  aggregate_scores st.1 st.2.1 st.2.2.1 st.2.2.2 all_shapes.length shapes_per_class

/-! ## Resampling (src/tools/database_write.py lines 17-37 and
src/scenes/scene_utils.py lines 76-92)

The loop observes a mesh only through `len(mesh.vertices)` and
`len(mesh.faces)`; the decimation and subdivision operations themselves
are trimesh externals (out of core scope per the spec) and are taken as
function parameters. -/

structure PyMesh where
  nv : ℕ
  nf : ℕ

/-- The `while` guard shared by both resample variants:
`len(mesh.vertices) > target + 500 or len(mesh.vertices) < target - 500`
(the threshold constant is 500 in both files).  Integer arithmetic keeps
`target - 500` faithful for small targets. -/
def outOfBand (target_vertices : ℕ) (mesh : PyMesh) : Prop :=
  (mesh.nv : ℤ) > (target_vertices : ℤ) + 500 ∨
  (mesh.nv : ℤ) < (target_vertices : ℤ) - 500

instance (t : ℕ) (m : PyMesh) : Decidable (outOfBand t m) := by
  unfold outOfBand; infer_instance

/-- One execution of the loop body shared by both variants: decimate when
above the band (with `new_face_count = target * (faces / vertices)`),
then subdivide when (still) below the band — both `if`s run in the same
pass, on the possibly already decimated mesh. -/
def resampleStep (simplify_quadratic_decimation : PyMesh → ℚ → PyMesh)
    (subdivide : PyMesh → PyMesh) (target_vertices : ℕ) (mesh : PyMesh) : PyMesh :=
  let m1 :=
    if (mesh.nv : ℤ) > (target_vertices : ℤ) + 500 then
      simplify_quadratic_decimation mesh
        ((target_vertices : ℚ) * ((mesh.nf : ℚ) / (mesh.nv : ℚ)))
    else mesh
  if (m1.nv : ℤ) < (target_vertices : ℤ) - 500 then subdivide m1 else m1

/-- The batch-pipeline `resample` loop (database_write.py lines 24-37)
with its `iterations` counter: after each body execution the counter is
incremented and the function returns `None` once it exceeds 10. -/
def resampleBatchGo (simplify_quadratic_decimation : PyMesh → ℚ → PyMesh)
    (subdivide : PyMesh → PyMesh) (target_vertices : ℕ) (mesh : PyMesh)
    (iterations : ℕ) : Option PyMesh :=
  if outOfBand target_vertices mesh then
    let m2 := resampleStep simplify_quadratic_decimation subdivide target_vertices mesh
    if iterations + 1 > 10 then none
    else resampleBatchGo simplify_quadratic_decimation subdivide target_vertices m2
      (iterations + 1)
  else some mesh
termination_by 11 - iterations
decreasing_by omega

/-- Embeds `resample` of database_write.py (lines 17-37): the batch
variant, starting with `iterations = 0`. -/
def resample_batch (simplify_quadratic_decimation : PyMesh → ℚ → PyMesh)
    (subdivide : PyMesh → PyMesh) (target_vertices : ℕ) (mesh : PyMesh) :
    Option PyMesh :=
  resampleBatchGo simplify_quadratic_decimation subdivide target_vertices mesh 0

/-- Embeds `resample` of scene_utils.py (lines 76-92): the interactive
variant has no iteration counter, so its `while` loop need not terminate;
it is modeled with explicit fuel, `none` standing for a loop still
running after the given number of body executions. -/
def resample_interactive (simplify_quadratic_decimation : PyMesh → ℚ → PyMesh)
    (subdivide : PyMesh → PyMesh) (target_vertices : ℕ) :
    ℕ → PyMesh → Option PyMesh
  | 0, _ => none
  | fuel + 1, mesh =>
    if outOfBand target_vertices mesh then
      resample_interactive simplify_quadratic_decimation subdivide target_vertices
        fuel (resampleStep simplify_quadratic_decimation subdivide target_vertices mesh)
    else some mesh

/-! ## Histogram normalization (src/tools/descriptor_extraction.py)

`compute_A3` (lines 215-217) and `compute_D1` (lines 263-265) both end
with `[x / np.sum(histogram) for x in histogram]`, with no guard on the
sum.  NumPy float division by a zero sum yields non-finite values
(`0/0 = nan`); a non-finite bin value is modeled as `none`. -/

def histNormalize (histogram : List ℚ) : List (Option ℚ) :=
  histogram.map (fun x => if histogram.sum = 0 then none else some (x / histogram.sum))

/-! ## The D3 descriptor sample value (descriptor_extraction.py lines
338-366)

Vertices are points in space; `np.linalg.norm` and `np.sqrt` are exact
real square roots; Python's `round(v, 3)` rounds `1000*v` to the nearest
integer, ties to even, and divides by 1000. -/

structure Vec3 where
  x : ℝ
  y : ℝ
  z : ℝ

/-- Round-half-to-even to an integer (the rounding rule of Python's
built-in `round`). -/
noncomputable def roundHalfEvenInt (v : ℝ) : ℤ :=
  if v - ⌊v⌋ < 1 / 2 then ⌊v⌋
  else if v - ⌊v⌋ > 1 / 2 then ⌊v⌋ + 1
  else if 2 ∣ ⌊v⌋ then ⌊v⌋ else ⌊v⌋ + 1

/-- Python's `round(v, 3)`. -/
noncomputable def pyRound3 (v : ℝ) : ℝ :=
  (roundHalfEvenInt (1000 * v) : ℝ) / 1000

/-- The distance `np.linalg.norm(u - v)` between two vertices. -/
noncomputable def npNorm (u v : Vec3) : ℝ :=
  Real.sqrt ((u.x - v.x) ^ 2 + (u.y - v.y) ^ 2 + (u.z - v.z) ^ 2)

/-- The Heron computation of `compute_D3` on the ROUNDED side lengths: the
sides `a = round(norm(B-C), 3)`, `b = round(norm(A-C), 3)`,
`c = round(norm(A-B), 3)`, the rounded semi-perimeter
`s = round((a+b+c)/2, 3)`, and the Heron area
`sqrt(abs(s*(s-a)*(s-b)*(s-c)))` — exactly the expression whose rounding
`compute_D3` stores in its `area` variable (lines 351-359). -/
noncomputable def d3RoundedHeronArea (A B C : Vec3) : ℝ :=
  let a := pyRound3 (npNorm B C)
  let b := pyRound3 (npNorm A C)
  let c := pyRound3 (npNorm A B)
  let s := pyRound3 ((a + b + c) / 2)
  Real.sqrt |s * (s - a) * (s - b) * (s - c)|

/-- Embeds one sample value appended to `areas` by `compute_D3`
(descriptor_extraction.py lines 346-360), statement for statement:
rounded side lengths, rounded semi-perimeter, the rounded Heron area
(`area = round(np.sqrt(np.abs(...)), 3)`), and finally
`areas.append(np.sqrt(area))`. -/
noncomputable def d3SampleValue (A B C : Vec3) : ℝ :=
  let a := pyRound3 (npNorm B C)
  let b := pyRound3 (npNorm A C)
  let c := pyRound3 (npNorm A B)
  let s := pyRound3 ((a + b + c) / 2)
  let area := pyRound3 (Real.sqrt |s * (s - a) * (s - b) * (s - c)|)
  Real.sqrt area

/-- The exact area of the triangle `A B C`: half the norm of the cross
product of two edge vectors (the claim-side reference value). -/
noncomputable def exactTriangleArea (A B C : Vec3) : ℝ :=
  Real.sqrt (((B.y - A.y) * (C.z - A.z) - (B.z - A.z) * (C.y - A.y)) ^ 2
    + ((B.z - A.z) * (C.x - A.x) - (B.x - A.x) * (C.z - A.z)) ^ 2
    + ((B.x - A.x) * (C.y - A.y) - (B.y - A.y) * (C.x - A.x)) ^ 2) / 2

/-- A descriptor value used by concrete witness instantiations. -/
def sampleDescriptor : ShapeDescriptors :=
  ⟨1, 0, 0, 0, 0, 0, [1, 0], [0, 1], [1, 0], [0, 1], [1, 0]⟩

/-! ## Helper lemmas -/

theorem emdGo_eq (x1 : List ℚ) : ∀ (x2 : List ℚ) (ac bc : ℚ),
    x1.length = x2.length →
    emdGo x1 x2 ac bc =
      ∑ i ∈ Finset.range x1.length,
        |ac + (x1.take (i + 1)).sum - (bc + (x2.take (i + 1)).sum)| := by
  induction x1 with
  | nil =>
    intro x2 ac bc h
    simp [emdGo]
  | cons a as ih =>
    intro x2 ac bc h
    cases x2 with
    | nil => simp at h
    | cons b bs =>
      simp only [List.length_cons] at h
      have hlen : as.length = bs.length := by omega
      simp only [emdGo, List.length_cons]
      rw [Finset.sum_range_succ']
      have h0 : |ac + ((a :: as).take 1).sum - (bc + ((b :: bs).take 1).sum)|
          = |ac + a - (bc + b)| := by
        simp
      have hsucc : ∀ i : ℕ,
          |ac + ((a :: as).take (i + 1 + 1)).sum - (bc + ((b :: bs).take (i + 1 + 1)).sum)|
          = |ac + a + (as.take (i + 1)).sum - (bc + b + (bs.take (i + 1)).sum)| := by
        intro i
        simp only [List.take_succ_cons, List.sum_cons]
        ring_nf
      rw [h0, ih bs (ac + a) (bc + b) hlen]
      rw [Finset.sum_congr rfl (fun i _ => hsucc i)]
      ring

theorem lookupFirst_dictInsert_self {α : Type} (k : String) (v : α)
    (l : List (String × α)) : lookupFirst k (dictInsert k v l) = some v := by
  induction l with
  | nil => simp [dictInsert, lookupFirst]
  | cons e rest ih =>
    obtain ⟨ek, ev⟩ := e
    by_cases h : ek = k
    · simp [dictInsert, lookupFirst, h]
    · simp [dictInsert, lookupFirst, h, ih]

theorem lookupFirst_dictInsert_ne {α : Type} {c k : String} (hne : c ≠ k) (v : α)
    (l : List (String × α)) : lookupFirst c (dictInsert k v l) = lookupFirst c l := by
  have hkc : ¬ k = c := fun h => hne h.symm
  induction l with
  | nil => simp [dictInsert, lookupFirst, hkc]
  | cons e rest ih =>
    obtain ⟨ek, ev⟩ := e
    by_cases h : ek = k
    · subst h
      simp [dictInsert, lookupFirst, hkc, hne]
    · by_cases h3 : ek = c
      · simp [dictInsert, lookupFirst, h, h3, hne]
      · simp [dictInsert, lookupFirst, h, h3, ih]

theorem mem_keys_dictInsert {α : Type} {c k : String} (v : α)
    (l : List (String × α)) :
    c ∈ (dictInsert k v l).map Prod.fst ↔ c ∈ l.map Prod.fst ∨ c = k := by
  induction l with
  | nil => simp [dictInsert, eq_comm]
  | cons e rest ih =>
    obtain ⟨ek, ev⟩ := e
    by_cases h : ek = k
    · subst h
      have hrw : dictInsert ek v ((ek, ev) :: rest) = (ek, v) :: rest := by
        simp [dictInsert]
      rw [hrw]
      simp only [List.map_cons, List.mem_cons]
      tauto
    · have hrw : dictInsert k v ((ek, ev) :: rest) = (ek, ev) :: dictInsert k v rest := by
        simp [dictInsert, h]
      rw [hrw]
      simp only [List.map_cons, List.mem_cons, ih]
      tauto

theorem keys_dictInsert_of_found {α : Type} {k : String} {l : List (String × α)}
    (h : k ∈ l.map Prod.fst) (v : α) :
    (dictInsert k v l).map Prod.fst = l.map Prod.fst := by
  induction l with
  | nil => simp at h
  | cons e rest ih =>
    obtain ⟨ek, ev⟩ := e
    by_cases he : ek = k
    · simp [dictInsert, he]
    · simp only [List.map_cons, List.mem_cons] at h
      have h2 : k ∈ rest.map Prod.fst := by
        rcases h with h | h
        · exact absurd h.symm he
        · exact h
      simp [dictInsert, he, ih h2]

theorem keys_dictInsert_not_found {α : Type} {k : String} {l : List (String × α)}
    (h : k ∉ l.map Prod.fst) (v : α) :
    dictInsert k v l = l ++ [(k, v)] := by
  induction l with
  | nil => simp [dictInsert]
  | cons e rest ih =>
    obtain ⟨ek, ev⟩ := e
    simp only [List.map_cons, List.mem_cons] at h
    push_neg at h
    have he : ¬ ek = k := fun hh => h.1 hh.symm
    simp [dictInsert, he, ih h.2]

theorem nodup_keys_dictInsert {α : Type} {l : List (String × α)}
    (h : (l.map Prod.fst).Nodup) (k : String) (v : α) :
    ((dictInsert k v l).map Prod.fst).Nodup := by
  by_cases hk : k ∈ l.map Prod.fst
  · rw [keys_dictInsert_of_found hk]
    exact h
  · rw [keys_dictInsert_not_found hk]
    simp [List.nodup_append, h, hk]

theorem mem_of_lookupFirst {α : Type} {c : String} {v : α} {l : List (String × α)}
    (h : lookupFirst c l = some v) : (c, v) ∈ l := by
  induction l with
  | nil => simp [lookupFirst] at h
  | cons e rest ih =>
    obtain ⟨ek, ev⟩ := e
    by_cases he : ek = c
    · subst he
      simp [lookupFirst] at h
      subst h
      exact List.mem_cons_self _ _
    · simp only [lookupFirst, if_neg he] at h
      exact List.mem_cons_of_mem _ (ih h)

theorem lookupFirst_of_mem_nodup {α : Type} {c : String} {v : α}
    {l : List (String × α)} (hnd : (l.map Prod.fst).Nodup) (h : (c, v) ∈ l) :
    lookupFirst c l = some v := by
  induction l with
  | nil => simp at h
  | cons e rest ih =>
    obtain ⟨ek, ev⟩ := e
    simp only [List.map_cons, List.nodup_cons] at hnd
    rcases List.mem_cons.1 h with h1 | h1
    · cases h1
      simp [lookupFirst]
    · have he : ¬ ek = c := by
        intro hh
        exact (hh ▸ hnd.1) (List.mem_map.2 ⟨(c, v), h1, rfl⟩)
      simp only [lookupFirst, if_neg he]
      exact ih hnd.2 h1

theorem mem_dictInsert_iff {α : Type} {c k : String} {f v : α}
    {l : List (String × α)} (hnd : (l.map Prod.fst).Nodup) :
    (c, f) ∈ dictInsert k v l ↔ (c = k ∧ f = v) ∨ ((c, f) ∈ l ∧ c ≠ k) := by
  induction l with
  | nil =>
    simp only [dictInsert, List.mem_singleton, Prod.mk.injEq, List.not_mem_nil,
      false_and, or_false]
  | cons e rest ih =>
    obtain ⟨ek, ev⟩ := e
    simp only [List.map_cons, List.nodup_cons] at hnd
    have hke : ek ∉ rest.map Prod.fst := hnd.1
    have hnd2 : (rest.map Prod.fst).Nodup := hnd.2
    by_cases he : ek = k
    · subst he
      have hrw : dictInsert ek v ((ek, ev) :: rest) = (ek, v) :: rest := by
        simp [dictInsert]
      rw [hrw]
      constructor
      · intro h1
        rcases List.mem_cons.1 h1 with h2 | h2
        · cases h2
          exact Or.inl ⟨rfl, rfl⟩
        · have hc : c ≠ ek := by
            intro hc
            subst hc
            exact hke (List.mem_map.2 ⟨(c, f), h2, rfl⟩)
          exact Or.inr ⟨List.mem_cons_of_mem _ h2, hc⟩
      · rintro (⟨h1, h2⟩ | ⟨h1, h2⟩)
        · subst h1
          subst h2
          exact List.mem_cons_self _ _
        · rcases List.mem_cons.1 h1 with h3 | h3
          · exact absurd (congrArg Prod.fst h3) h2
          · exact List.mem_cons_of_mem _ h3
    · have hrw : dictInsert k v ((ek, ev) :: rest) = (ek, ev) :: dictInsert k v rest := by
        simp [dictInsert, he]
      rw [hrw]
      constructor
      · intro h1
        rcases List.mem_cons.1 h1 with h2 | h2
        · cases h2
          exact Or.inr ⟨List.mem_cons_self _ _, fun hc => he hc⟩
        · rcases (ih hnd2).1 h2 with ⟨h3, h4⟩ | ⟨h3, h4⟩
          · exact Or.inl ⟨h3, h4⟩
          · exact Or.inr ⟨List.mem_cons_of_mem _ h3, h4⟩
      · rintro (⟨h1, h2⟩ | ⟨h1, h2⟩)
        · exact List.mem_cons_of_mem _ ((ih hnd2).2 (Or.inl ⟨h1, h2⟩))
        · rcases List.mem_cons.1 h1 with h3 | h3
          · cases h3
            exact List.mem_cons_self _ _
          · exact List.mem_cons_of_mem _ ((ih hnd2).2 (Or.inr ⟨h3, h2⟩))

theorem candidateDistance_eq_some {metric : String} (hm : metric ∈ validMetrics)
    (cur mesh : ShapeDescriptors) :
    candidateDistance metric cur mesh = some (candidateDistanceD metric cur mesh) := by
  simp only [validMetrics, List.mem_cons, List.not_mem_nil, or_false] at hm
  rcases hm with h | h | h | h | h | h | h | h | h <;>
    subst h <;> rfl

theorem gbmsStep_eq {metric : String} (hm : metric ∈ validMetrics)
    (cur : ShapeDescriptors) (d : List (String × ℝ)) (p : String × ShapeDescriptors) :
    gbmsStep metric cur d p = dictInsert p.1 (candidateDistanceD metric cur p.2) d := by
  rw [gbmsStep, candidateDistance_eq_some hm]

theorem gbmsDistances_foldl_eq {metric : String} (hm : metric ∈ validMetrics)
    (cur : ShapeDescriptors) :
    ∀ (ms : List (String × ShapeDescriptors)) (acc : List (String × ℝ)),
      (acc.map Prod.fst ++ ms.map Prod.fst).Nodup →
      ms.foldl (gbmsStep metric cur) acc
      = acc ++ ms.map (fun p => (p.1, candidateDistanceD metric cur p.2)) := by
  intro ms
  induction ms with
  | nil => intro acc _; simp
  | cons p rest ih =>
    intro acc hnd
    obtain ⟨nm, mesh⟩ := p
    rw [List.foldl_cons, gbmsStep_eq hm]
    have hnm : nm ∉ acc.map Prod.fst := by
      intro hmem
      rw [List.nodup_append] at hnd
      exact hnd.2.2 hmem (by simp)
    rw [keys_dictInsert_not_found hnm]
    have hnd2 : ((acc ++ [(nm, candidateDistanceD metric cur mesh)]).map Prod.fst
        ++ rest.map Prod.fst).Nodup := by
      simp only [List.map_append, List.map_cons, List.map_nil, List.append_assoc,
        List.singleton_append]
      simpa using hnd
    rw [ih _ hnd2]
    simp

theorem gbmsDistances_eq {metric : String} (hm : metric ∈ validMetrics)
    (cur : ShapeDescriptors) (ms : List (String × ShapeDescriptors))
    (hnd : (ms.map Prod.fst).Nodup) :
    gbmsDistances metric cur ms
      = ms.map (fun p => (p.1, candidateDistanceD metric cur p.2)) := by
  have := gbmsDistances_foldl_eq hm cur ms [] (by simpa using hnd)
  simpa [gbmsDistances] using this

theorem gbmsDistances_keys_sub {metric : String} (cur : ShapeDescriptors) :
    ∀ (ms : List (String × ShapeDescriptors)) (acc : List (String × ℝ)) (c : String),
      c ∈ (ms.foldl (gbmsStep metric cur) acc).map Prod.fst →
      c ∈ acc.map Prod.fst ∨ c ∈ ms.map Prod.fst := by
  intro ms
  induction ms with
  | nil => intro acc c h; exact Or.inl h
  | cons p rest ih =>
    intro acc c h
    rw [List.foldl_cons] at h
    have hsub : (gbmsStep metric cur acc p).map Prod.fst
        ⊆ p.1 :: acc.map Prod.fst := by
      intro a ha
      rcases hcd : candidateDistance metric cur p.2 with _ | v
      · rw [gbmsStep, hcd] at ha
        exact List.mem_cons_of_mem _ ha
      · rw [gbmsStep, hcd] at ha
        rcases (mem_keys_dictInsert v acc).1 ha with h3 | h3
        · exact List.mem_cons_of_mem _ h3
        · subst h3
          exact List.mem_cons_self _ _
    rcases ih (gbmsStep metric cur acc p) c h with h2 | h2
    · rcases List.mem_cons.1 (hsub h2) with h3 | h3
      · subst h3
        exact Or.inr (by simp)
      · exact Or.inl h3
    · exact Or.inr (List.mem_cons_of_mem _ (by simpa using h2))

/-- C6: for every pair of descriptors, each blended distance metric equals
the single-feature distance times its fixed weight plus the
histogram-feature distance times its fixed weight, with exactly the
weight pairs (single/histogram): Euclidean+EMD 0.5/0.5, Euclidean+Cosine
0.04/0.96, Cosine+EMD 0.5/0.5, Cosine+Euclidean 0.4/0.6, EMD+Euclidean
0.03/0.97, EMD+Cosine 0.01/0.99. -/
theorem C6_blended_metric_weights (cur mesh : ShapeDescriptors) :
    candidateDistance "Euclidean (Single) + EMD (Histogram)" cur mesh
      = some (euclidean_distance cur.get_normalized_single_features
          mesh.get_normalized_single_features * 0.5
        + (earth_movers_distance cur.get_normalized_histogram_features
          mesh.get_normalized_histogram_features : ℚ) * 0.5) ∧
    candidateDistance "Euclidean (Single) + Cosine (Histogram)" cur mesh
      = some (euclidean_distance cur.get_normalized_single_features
          mesh.get_normalized_single_features * 0.04
        + cosine_distance cur.get_normalized_histogram_features
          mesh.get_normalized_histogram_features * 0.96) ∧
    candidateDistance "Cosine (Single) + EMD (Histogram)" cur mesh
      = some (cosine_distance cur.get_normalized_single_features
          mesh.get_normalized_single_features * 0.5
        + (earth_movers_distance cur.get_normalized_histogram_features
          mesh.get_normalized_histogram_features : ℚ) * 0.5) ∧
    candidateDistance "Cosine (Single) + Euclidean (Histogram)" cur mesh
      = some (cosine_distance cur.get_normalized_single_features
          mesh.get_normalized_single_features * 0.4
        + euclidean_distance cur.get_normalized_histogram_features
          mesh.get_normalized_histogram_features * 0.6) ∧
    candidateDistance "EMD (Single) + Euclidean (Histogram)" cur mesh
      = some ((earth_movers_distance cur.get_normalized_single_features
          mesh.get_normalized_single_features : ℚ) * 0.03
        + euclidean_distance cur.get_normalized_histogram_features
          mesh.get_normalized_histogram_features * 0.97) ∧
    candidateDistance "EMD (Single) + Cosine (Histogram)" cur mesh
      = some ((earth_movers_distance cur.get_normalized_single_features
          mesh.get_normalized_single_features : ℚ) * 0.01
        + cosine_distance cur.get_normalized_histogram_features
          mesh.get_normalized_histogram_features * 0.99) :=
  ⟨rfl, rfl, rfl, rfl, rfl, rfl⟩

/-- C7: for every pair of equal-length vectors, the Earth Mover's
Distance computed by the distance engine equals the L1 difference of the
running cumulative sums, `sum_i |cumsum(x1)_i - cumsum(x2)_i|`. -/
theorem C7_emd_is_cumsum_l1 (x1 x2 : List ℚ) (h : x1.length = x2.length) :
    earth_movers_distance x1 x2 = emdCumulative x1 x2 := by
  unfold earth_movers_distance emdCumulative
  rw [emdGo_eq x1 x2 0 0 h]
  simp

/-- Witness for C7 at concrete histograms. -/
theorem C7_emd_is_cumsum_l1_witness :
    ([(1 : ℚ), 2, 5].length = [(3 : ℚ), 4, 1].length) ∧
      earth_movers_distance [(1 : ℚ), 2, 5] [(3 : ℚ), 4, 1]
        = emdCumulative [(1 : ℚ), 2, 5] [(3 : ℚ), 4, 1] :=
  ⟨rfl, C7_emd_is_cumsum_l1 [(1 : ℚ), 2, 5] [(3 : ℚ), 4, 1] rfl⟩

/-- C3 (code-bug exhibit): on a histogram whose total count is zero, the
normalization of `compute_A3` / `compute_D1` divides every bin by zero,
producing non-finite values in every bin (modeled as `none`) — it neither
rejects the descriptor nor substitutes the uniform distribution. -/
theorem C3_nan_on_zero_sum :
    histNormalize (List.replicate 10 0) = List.replicate 10 none ∧
    ∀ q : ℚ, histNormalize (List.replicate 10 0) ≠ List.replicate 10 (some q) := by
  have hz : histNormalize (List.replicate 10 0) = List.replicate 10 none := by
    simp [histNormalize, List.sum_replicate, List.map_replicate]
  refine ⟨hz, fun q h => ?_⟩
  rw [hz] at h
  have h2 := congrArg List.head? h
  simp at h2

theorem resample_interactive_cases (dec : PyMesh → ℚ → PyMesh)
    (subd : PyMesh → PyMesh) (t : ℕ) :
    ∀ (fuel : ℕ) (mesh : PyMesh),
      (∃ m, resample_interactive dec subd t fuel mesh = some m ∧ ¬ outOfBand t m) ∨
        resample_interactive dec subd t fuel mesh = none := by
  intro fuel
  induction fuel with
  | zero => intro mesh; exact Or.inr rfl
  | succ n ih =>
    intro mesh
    by_cases h : outOfBand t mesh
    · rcases ih (resampleStep dec subd t mesh) with ⟨m, hm, hb⟩ | hnone
      · exact Or.inl ⟨m, by rw [resample_interactive, if_pos h]; exact hm, hb⟩
      · exact Or.inr (by rw [resample_interactive, if_pos h]; exact hnone)
    · exact Or.inl ⟨mesh, by rw [resample_interactive, if_neg h], h⟩

theorem resampleBatchGo_eq_fuel (dec : PyMesh → ℚ → PyMesh)
    (subd : PyMesh → PyMesh) (t : ℕ) :
    ∀ (n iterations : ℕ) (mesh : PyMesh), iterations + n = 11 → iterations ≤ 10 →
      resampleBatchGo dec subd t mesh iterations
        = resample_interactive dec subd t n mesh := by
  intro n
  induction n with
  | zero => intro iters mesh h1 h2; omega
  | succ m ih =>
    intro iters mesh h1 h2
    by_cases h : outOfBand t mesh
    · rw [resampleBatchGo, if_pos h, resample_interactive, if_pos h]
      by_cases h10 : iters + 1 > 10
      · have hi : iters = 10 := by omega
        have hm0 : m = 0 := by omega
        subst hm0
        rw [if_pos h10]
        rfl
      · rw [if_neg h10]
        exact ih (iters + 1) _ (by omega) (by omega)
    · rw [resampleBatchGo, if_neg h, resample_interactive, if_neg h]

theorem resample_interactive_no_cap :
    ∀ fuel : ℕ,
      resample_interactive (fun m _ => m) id 1000 fuel ⟨0, 0⟩ = none := by
  have hband : outOfBand 1000 (⟨0, 0⟩ : PyMesh) := by
    unfold outOfBand
    right
    norm_num
  have hstep : resampleStep (fun m _ => m) id 1000 ⟨0, 0⟩ = (⟨0, 0⟩ : PyMesh) := by
    unfold resampleStep
    norm_num
  intro fuel
  induction fuel with
  | zero => rfl
  | succ n ih =>
    rw [resample_interactive, if_pos hband, hstep]
    exact ih

/-- C5: the batch-pipeline resample loop terminates for every input mesh —
it either stops inside the tolerance band or rejects the mesh (returns
`none`); it behaves exactly like the capless variant run with fuel 11
(the `iterations > 10` counter check); and the interactive variant of the
same routine has no retry cap: there is an input on which it loops
forever (never returns, i.e. is still running at every fuel). -/
theorem C5_resample_cap :
    (∀ (dec : PyMesh → ℚ → PyMesh) (subd : PyMesh → PyMesh) (t : ℕ) (mesh : PyMesh),
      (∃ m, resample_batch dec subd t mesh = some m ∧ ¬ outOfBand t m) ∨
        resample_batch dec subd t mesh = none) ∧
    (∀ (dec : PyMesh → ℚ → PyMesh) (subd : PyMesh → PyMesh) (t : ℕ) (mesh : PyMesh),
      resample_batch dec subd t mesh = resample_interactive dec subd t 11 mesh) ∧
    (∃ (dec : PyMesh → ℚ → PyMesh) (subd : PyMesh → PyMesh) (t : ℕ) (mesh : PyMesh),
      ∀ fuel : ℕ, resample_interactive dec subd t fuel mesh = none) := by
  refine ⟨?_, ?_, ?_⟩
  · intro dec subd t mesh
    rw [resample_batch, resampleBatchGo_eq_fuel dec subd t 11 0 mesh (by omega) (by omega)]
    exact resample_interactive_cases dec subd t 11 mesh
  · intro dec subd t mesh
    rw [resample_batch]
    exact resampleBatchGo_eq_fuel dec subd t 11 0 mesh (by omega) (by omega)
  · exact ⟨fun m _ => m, id, 1000, ⟨0, 0⟩, resample_interactive_no_cap⟩

theorem gbmsDistances_keys_subset {metric : String} {cur : ShapeDescriptors}
    {ms : List (String × ShapeDescriptors)} {c : String}
    (h : c ∈ (gbmsDistances metric cur ms).map Prod.fst) : c ∈ ms.map Prod.fst := by
  rw [gbmsDistances] at h
  rcases gbmsDistances_keys_sub cur ms [] c h with h2 | h2
  · simp at h2
  · exact h2

/-- C8: every Custom-mode query of the leave-one-out evaluation returns at
most `k` matched shape names (for every `k`, in particular every
`k ≤ N - 1`), and the query shape's own name is never among them. -/
theorem C8_custom_query_bound (all_shapes : List (String × ShapeDescriptors))
    (name : String) (descriptor : ShapeDescriptors) (k : ℕ) (metric : String) :
    (customMatches all_shapes name descriptor k metric).length ≤ k ∧
    name ∉ customMatches all_shapes name descriptor k metric := by
  constructor
  · rw [customMatches, get_best_matching_shapes]
    rw [List.length_map, List.length_take]
    exact min_le_left _ _
  · intro hmem
    rw [customMatches, get_best_matching_shapes] at hmem
    obtain ⟨pair, hpair, hfst⟩ := List.mem_map.1 hmem
    have h1 : pair ∈ (gbmsDistances metric descriptor
        (all_shapes.filter (fun p => p.1 != name))).mergeSort
        (fun p q => decide (p.2 ≤ q.2)) := List.take_subset _ _ hpair
    have h2 : pair ∈ gbmsDistances metric descriptor
        (all_shapes.filter (fun p => p.1 != name)) := List.mem_mergeSort.1 h1
    have h3 : name ∈ (gbmsDistances metric descriptor
        (all_shapes.filter (fun p => p.1 != name))).map Prod.fst :=
      List.mem_map.2 ⟨pair, h2, hfst⟩
    have h4 := gbmsDistances_keys_subset h3
    obtain ⟨q, hq, hqfst⟩ := List.mem_map.1 h4
    have := List.mem_filter.1 hq
    rw [hqfst] at this
    simp at this

/-- C10: for every query, candidate list and neighbor count (with a
recognized metric and distinct candidate names, as a Python dict has),
the second component of `get_best_matching_shapes` is the full list of
candidate distances in candidate-iteration order — neither sorted nor
truncated to `k` — while the first component has length `min k m`. -/
theorem C10_distances_not_truncated (cur : ShapeDescriptors)
    (ms : List (String × ShapeDescriptors)) (k : ℕ) (metric : String)
    (hval : metric ∈ validMetrics) (hnodup : (ms.map Prod.fst).Nodup) :
    (get_best_matching_shapes cur ms k metric).2
      = ms.map (fun p => candidateDistanceD metric cur p.2) ∧
    (get_best_matching_shapes cur ms k metric).1.length = min k ms.length := by
  have hdist := gbmsDistances_eq hval cur ms hnodup
  constructor
  · show (gbmsDistances metric cur ms).map Prod.snd = _
    rw [hdist, List.map_map]
    rfl
  · show (List.map Prod.fst (((gbmsDistances metric cur ms).mergeSort
      (fun p q => decide (p.2 ≤ q.2))).take k)).length = min k ms.length
    rw [List.length_map, List.length_take, List.length_mergeSort, hdist,
      List.length_map]

/-- Witness for C10 at a concrete corpus of two candidates with the EMD
metric and `k = 1`. -/
theorem C10_distances_not_truncated_witness :
    ("EMD" ∈ validMetrics) ∧
    (([("a", sampleDescriptor), ("b", sampleDescriptor)].map Prod.fst).Nodup) ∧
    ((get_best_matching_shapes sampleDescriptor
        [("a", sampleDescriptor), ("b", sampleDescriptor)] 1 "EMD").2
      = [("a", sampleDescriptor), ("b", sampleDescriptor)].map
          (fun p => candidateDistanceD "EMD" sampleDescriptor p.2) ∧
    (get_best_matching_shapes sampleDescriptor
        [("a", sampleDescriptor), ("b", sampleDescriptor)] 1 "EMD").1.length
      = min 1 [("a", sampleDescriptor), ("b", sampleDescriptor)].length) :=
  ⟨by simp [validMetrics], by simp,
    C10_distances_not_truncated sampleDescriptor _ 1 "EMD"
      (by simp [validMetrics]) (by simp)⟩

theorem candidateDistance_none {metric : String} (hm : metric ∉ validMetrics)
    (cur mesh : ShapeDescriptors) : candidateDistance metric cur mesh = none := by
  simp only [validMetrics, List.mem_cons, List.not_mem_nil, or_false] at hm
  push_neg at hm
  obtain ⟨h1, h2, h3, h4, h5, h6, h7, h8, h9⟩ := hm
  simp [candidateDistance, h1, h2, h3, h4, h5, h6, h7, h8, h9]

theorem gbms_empty_of_unknown_metric {metric : String} (hm : metric ∉ validMetrics)
    (cur : ShapeDescriptors) (ms : List (String × ShapeDescriptors)) (k : ℕ) :
    get_best_matching_shapes cur ms k metric = ([], []) := by
  have hfold : ∀ (l : List (String × ShapeDescriptors)) (acc : List (String × ℝ)),
      l.foldl (gbmsStep metric cur) acc = acc := by
    intro l
    induction l with
    | nil => intro acc; rfl
    | cons p rest ih =>
      intro acc
      rw [List.foldl_cons]
      have hstep : gbmsStep metric cur acc p = acc := by
        rw [gbmsStep, candidateDistance_none hm]
      rw [hstep]
      exact ih acc
  have hd : gbmsDistances metric cur ms = [] := hfold ms []
  rw [get_best_matching_shapes]
  simp [hd]

/-- C4 (amended): an unrecognized query type makes `evaluate_query` fail
fast (the `exit()` branch, modeled as an error), but an unrecognized
distance-metric identifier does NOT fail fast: `get_best_matching_shapes`
silently returns empty matches and empty distances. -/
theorem C4_unknown_inputs :
    (∀ (query_type : String) (all_shapes : List (String × ShapeDescriptors))
      (k : ℕ) (spc : List (String × ℕ)) (ac : List (String × List String))
      (iq : List ℚ → ℕ → List ℕ) (metric : String),
      query_type ≠ "Custom" → query_type ≠ "ANN" →
      ∃ msg, evaluate_query query_type all_shapes k spc ac iq metric
        = Except.error msg) ∧
    (∀ (cur : ShapeDescriptors) (ms : List (String × ShapeDescriptors))
      (k : ℕ) (metric : String), metric ∉ validMetrics →
      get_best_matching_shapes cur ms k metric = ([], [])) := by
  constructor
  · intro qt all_shapes k spc ac iq metric hq1 hq2
    cases all_shapes with
    | nil =>
      cases spc with
      | nil => exact ⟨"ZeroDivisionError", rfl⟩
      | cons e r => exact ⟨"KeyError", rfl⟩
    | cons s rest =>
      refine ⟨"No implementation for the query type: " ++ qt, ?_⟩
      have hstep : evaluateQueryStep qt (s :: rest) k ac iq metric ([], [], 0, 0) s
          = Except.error ("No implementation for the query type: " ++ qt) := by
        rw [evaluateQueryStep, if_neg hq1, if_neg hq2]
        rfl
      show (do
        let st ← List.foldlM (evaluateQueryStep qt (s :: rest) k ac iq metric)
          ([], [], 0, 0) (s :: rest)
        aggregate_scores st.1 st.2.1 st.2.2.1 st.2.2.2 (s :: rest).length spc)
        = Except.error ("No implementation for the query type: " ++ qt)
      rw [List.foldlM_cons, hstep]
      rfl
  · intro cur ms k metric hm
    exact gbms_empty_of_unknown_metric hm cur ms k

/-- Witness for C4 at concrete unknown inputs. -/
theorem C4_unknown_inputs_witness :
    (("Foo" : String) ≠ "Custom" ∧ ("Foo" : String) ≠ "ANN" ∧
      ∃ msg, evaluate_query "Foo" [("m1", sampleDescriptor)] 1 [] []
        (fun _ _ => []) "Euclidean" = Except.error msg) ∧
    (("Manhattan" : String) ∉ validMetrics ∧
      get_best_matching_shapes sampleDescriptor [("m1", sampleDescriptor)] 5
        "Manhattan" = ([], [])) := by
  have h1 : ("Foo" : String) ≠ "Custom" := by decide
  have h2 : ("Foo" : String) ≠ "ANN" := by decide
  have h3 : ("Manhattan" : String) ∉ validMetrics := by decide
  exact ⟨⟨h1, h2, C4_unknown_inputs.1 "Foo" _ 1 [] [] _ "Euclidean" h1 h2⟩,
    ⟨h3, C4_unknown_inputs.2 sampleDescriptor _ 5 "Manhattan" h3⟩⟩

/-- Counterexample to C4 as stated: a call with the unrecognized metric
identifier "Manhattan" and a nonempty candidate set does not fail: it
silently returns the empty result pair. -/
theorem C4_unknown_metric_cex :
    get_best_matching_shapes sampleDescriptor [("m1", sampleDescriptor)] 5
      "Manhattan" = ([], []) :=
  gbms_empty_of_unknown_metric (by decide) sampleDescriptor _ 5

/-- C1 (amended): the recall computed by `calculate_recall` is (number of
retrieved shapes sharing the query's ground-truth class) divided by the
FULL size of the query's class — the query itself is NOT excluded from
the denominator. -/
theorem C1_recall_denominator (name : String) (matched : List String)
    (all_classes : List (String × List String)) (cls : String) (L : List String)
    (hfind : findCorrectClass name all_classes = some cls) (hcls : cls ≠ "")
    (hlook : lookupFirst cls all_classes = some L) :
    (calculate_recall name matched all_classes).1
      = (countMatched matched L : ℚ) / (L.length : ℚ) := by
  rw [calculate_recall, hfind]
  simp only [lookupD, hlook, if_neg hcls]
  by_cases hL : L.length = 0
  · have hnil : L = [] := List.length_eq_zero.1 hL
    subst hnil
    have htp : countMatched matched [] = 0 := by
      simp [countMatched]
    rw [htp]
    norm_num
  · have hpos : ((countMatched matched L : ℤ)
        + ((L.length : ℤ) - (countMatched matched L : ℤ))) > 0 := by
      omega
    rw [if_pos hpos]
    have : ((countMatched matched L : ℤ)
        + ((L.length : ℤ) - (countMatched matched L : ℤ))) = (L.length : ℤ) := by
      ring
    rw [this]
    push_cast
    rfl

/-- Witness for C1 at a two-element class where the query retrieves its
single classmate. -/
theorem C1_recall_denominator_witness :
    findCorrectClass "q" [("c", ["q", "x"])] = some "c" ∧
    ("c" : String) ≠ "" ∧
    lookupFirst "c" [("c", ["q", "x"])] = some ["q", "x"] ∧
    (calculate_recall "q" ["x"] [("c", ["q", "x"])]).1
      = (countMatched ["x"] ["q", "x"] : ℚ) / ((["q", "x"] : List String).length : ℚ) := by
  have hfind : findCorrectClass "q" [("c", ["q", "x"])] = some "c" := by
    simp [findCorrectClass]
  have hcls : ("c" : String) ≠ "" := by decide
  have hlook : lookupFirst "c" [("c", ["q", "x"])] = some ["q", "x"] := by
    simp [lookupFirst]
  exact ⟨hfind, hcls, hlook,
    C1_recall_denominator "q" ["x"] [("c", ["q", "x"])] "c" ["q", "x"] hfind hcls hlook⟩

/-- Counterexample to C1 as stated: the query "q" belongs to a class of
size 2 and retrieves its single classmate "x" (one true positive), so the
claimed recall `tp / (class size - 1)` would be 1, but the code computes
`tp / class size` = 1/2. -/
theorem C1_recall_denominator_cex :
    (calculate_recall "q" ["x"] [("c", ["q", "x"])]).1 = 1 / 2 ∧
    (calculate_recall "q" ["x"] [("c", ["q", "x"])]).1 ≠ 1 / ((2 : ℚ) - 1) := by
  have h : (calculate_recall "q" ["x"] [("c", ["q", "x"])]).1 = 1 / 2 := by
    simp [calculate_recall, findCorrectClass, lookupD, lookupFirst, countMatched]
  refine ⟨h, ?_⟩
  rw [h]
  norm_num

theorem dictInsert_self_mem {α : Type} (k : String) (v : α) (l : List (String × α)) :
    (k, v) ∈ dictInsert k v l := by
  induction l with
  | nil => exact List.mem_cons_self _ _
  | cons e rest ih =>
    obtain ⟨ek, ev⟩ := e
    by_cases h : ek = k
    · subst h
      simp [dictInsert]
    · simp only [dictInsert, if_neg h]
      exact List.mem_cons_of_mem _ ih

theorem lookupFirst_some_mem_keys {α : Type} {k : String} {v : α}
    {l : List (String × α)} (h : lookupFirst k l = some v) : k ∈ l.map Prod.fst :=
  List.mem_map.2 ⟨(k, v), mem_of_lookupFirst h, rfl⟩

theorem divideByClassCounts_keys :
    ∀ (spc : List (String × ℕ)) (ps rs ps' rs' : List (String × ℚ)),
      divideByClassCounts spc ps rs = Except.ok (ps', rs') →
      ps'.map Prod.fst = ps.map Prod.fst ∧ rs'.map Prod.fst = rs.map Prod.fst := by
  intro spc
  induction spc with
  | nil =>
    intro ps rs ps' rs' h
    simp only [divideByClassCounts, List.foldlM_nil] at h
    cases h
    exact ⟨rfl, rfl⟩
  | cons e r ih =>
    intro ps rs ps' rs' h
    rw [divideByClassCounts, List.foldlM_cons] at h
    cases hp : lookupFirst e.1 ps with
    | none =>
      rw [hp] at h
      cases hr : lookupFirst e.1 rs <;> rw [hr] at h <;>
        dsimp only [Bind.bind, Except.bind] at h <;> simp at h
    | some p =>
      rw [hp] at h
      cases hr : lookupFirst e.1 rs with
      | none =>
        rw [hr] at h
        dsimp only [Bind.bind, Except.bind] at h
        simp at h
      | some rv =>
        rw [hr] at h
        dsimp only at h
        by_cases hz : e.2 = 0
        · rw [if_pos hz] at h
          dsimp only [Bind.bind, Except.bind] at h
          simp at h
        · rw [if_neg hz] at h
          dsimp only [Bind.bind, Except.bind] at h
          have h2 : divideByClassCounts r (dictInsert e.1 (p / (e.2 : ℚ)) ps)
              (dictInsert e.1 (rv / (e.2 : ℚ)) rs) = Except.ok (ps', rs') := h
          obtain ⟨k1, k2⟩ := ih _ _ _ _ h2
          rw [k1, k2, keys_dictInsert_of_found (lookupFirst_some_mem_keys hp),
            keys_dictInsert_of_found (lookupFirst_some_mem_keys hr)]
          exact ⟨rfl, rfl⟩

theorem f1Loop_mem (R : List (String × ℚ)) :
    ∀ (entries F F' : List (String × ℚ)),
      f1Loop R entries F = Except.ok F' → (F.map Prod.fst).Nodup →
      ∀ c f, (c, f) ∈ F' →
        (∃ p r, (c, p) ∈ entries ∧ lookupFirst c R = some r ∧
          f = (if p + r > 0 then 2 * p * r / (p + r) else 0)) ∨
        ((c, f) ∈ F ∧ c ∉ entries.map Prod.fst) := by
  intro entries
  induction entries with
  | nil =>
    intro F F' h hnd c f hm
    simp only [f1Loop] at h
    cases h
    exact Or.inr ⟨hm, by simp⟩
  | cons e rest ih =>
    obtain ⟨c0, p0⟩ := e
    intro F F' h hnd c f hm
    rw [f1Loop] at h
    cases hr0 : lookupFirst c0 R with
    | none =>
      rw [hr0] at h
      simp at h
    | some r0 =>
      rw [hr0] at h
      have hnd2 : ((dictInsert c0
          (if p0 + r0 > 0 then 2 * p0 * r0 / (p0 + r0) else 0) F).map Prod.fst).Nodup :=
        nodup_keys_dictInsert hnd _ _
      rcases ih _ _ h hnd2 c f hm with ⟨p, r, hp, hr, hf⟩ | ⟨hmem, hnot⟩
      · exact Or.inl ⟨p, r, List.mem_cons_of_mem _ hp, hr, hf⟩
      · rcases (mem_dictInsert_iff hnd).1 hmem with ⟨hc, hf⟩ | ⟨hmem2, hne⟩
        · subst hc
          exact Or.inl ⟨p0, r0, List.mem_cons_self _ _, hr0, hf⟩
        · refine Or.inr ⟨hmem2, ?_⟩
          simp only [List.map_cons, List.mem_cons]
          push_neg
          exact ⟨hne, hnot⟩

theorem f1Loop_untouched (R : List (String × ℚ)) :
    ∀ (entries F F' : List (String × ℚ)) (c : String),
      f1Loop R entries F = Except.ok F' → c ∉ entries.map Prod.fst →
      lookupFirst c F' = lookupFirst c F := by
  intro entries
  induction entries with
  | nil =>
    intro F F' c h _
    simp only [f1Loop] at h
    cases h
    rfl
  | cons e rest ih =>
    obtain ⟨c0, p0⟩ := e
    intro F F' c h hnot
    simp only [List.map_cons, List.mem_cons] at hnot
    push_neg at hnot
    rw [f1Loop] at h
    cases hr0 : lookupFirst c0 R with
    | none =>
      rw [hr0] at h
      simp at h
    | some r0 =>
      rw [hr0] at h
      rw [ih _ _ c h hnot.2]
      exact lookupFirst_dictInsert_ne hnot.1 _ F

theorem f1Loop_lookup (R : List (String × ℚ)) :
    ∀ (entries F F' : List (String × ℚ)),
      f1Loop R entries F = Except.ok F' → (entries.map Prod.fst).Nodup →
      ∀ c p r, (c, p) ∈ entries → lookupFirst c R = some r →
      lookupFirst c F' = some (if p + r > 0 then 2 * p * r / (p + r) else 0) := by
  intro entries
  induction entries with
  | nil =>
    intro F F' h hnd c p r hm hr
    simp at hm
  | cons e rest ih =>
    obtain ⟨c0, p0⟩ := e
    intro F F' h hnd c p r hm hr
    simp only [List.map_cons, List.nodup_cons] at hnd
    rw [f1Loop] at h
    cases hr0 : lookupFirst c0 R with
    | none =>
      rw [hr0] at h
      simp at h
    | some r0 =>
      rw [hr0] at h
      rcases List.mem_cons.1 hm with h1 | h1
      · injection h1 with hc hp2
        subst hc
        subst hp2
        rw [hr0] at hr
        injection hr with hrr
        subst hrr
        rw [f1Loop_untouched R rest _ _ c h hnd.1]
        exact lookupFirst_dictInsert_self _ _ _
      · exact ih _ _ h hnd.2 c p r h1 hr

/-- C2 (amended): in the aggregation of `evaluate_query`, every per-class
F1 entry of the returned `f1_scores` dict equals `2*P*R/(P+R)` when
`P+R > 0` and 0 otherwise — and this includes the returned overall
"Average" entry: the `2*avgP*avgP/(avgP+avgR)` precision-squared value is
assigned first but then overwritten by the per-class pass (which iterates
over the "Average" key too), so the returned overall F1 also equals the
standard `2*avgP*avgR/(avgP+avgR)` formula. -/
theorem C2_f1_formulas (precisions recalls : List (String × ℚ)) (sumP sumR : ℚ)
    (n : ℕ) (spc : List (String × ℕ)) (P R F : List (String × ℚ))
    (hok : aggregate_scores precisions recalls sumP sumR n spc = Except.ok (P, R, F))
    (hnodup : (precisions.map Prod.fst).Nodup) :
    (∀ c f, (c, f) ∈ F → ∃ p r, lookupFirst c P = some p ∧ lookupFirst c R = some r ∧
      f = (if p + r > 0 then 2 * p * r / (p + r) else 0)) ∧
    lookupFirst "Average" F
      = some (if sumP / (n : ℚ) + sumR / (n : ℚ) > 0 then
          2 * (sumP / (n : ℚ)) * (sumR / (n : ℚ)) / (sumP / (n : ℚ) + sumR / (n : ℚ))
        else 0) := by
  unfold aggregate_scores at hok
  split at hok
  · simp at hok
  · rename_i divided heq
    obtain ⟨d1, d2⟩ := divided
    split at hok
    · simp at hok
    · dsimp only at hok
      split at hok
      · simp at hok
      · rename_i f1s hf1
        injection hok with h12
        injection h12 with hA h23
        injection h23 with hB hC
        subst hA
        subst hB
        subst hC
        obtain ⟨hk1, hk2⟩ := divideByClassCounts_keys spc precisions recalls d1 d2 heq
        have hnodup1 : (d1.map Prod.fst).Nodup := by rw [hk1]; exact hnodup
        have hP_nodup : ((dictInsert "Average" (sumP / (n : ℚ)) d1).map Prod.fst).Nodup :=
          nodup_keys_dictInsert hnodup1 _ _
        constructor
        · intro c f hmf
          rcases f1Loop_mem _ _ _ _ hf1 (by simp [dictInsert]) c f hmf with
            ⟨p, r, hp, hr, hf⟩ | ⟨hmem, hnot⟩
          · exact ⟨p, r, lookupFirst_of_mem_nodup hP_nodup hp, hr, hf⟩
          · exfalso
            have hc : c = "Average" := by
              simp [dictInsert] at hmem
              exact hmem.1
            apply hnot
            rw [hc]
            exact (mem_keys_dictInsert _ _).2 (Or.inr rfl)
        · exact f1Loop_lookup _ _ _ _ hf1 hP_nodup "Average" (sumP / (n : ℚ))
            (sumR / (n : ℚ)) (dictInsert_self_mem _ _ _)
            (lookupFirst_dictInsert_self _ _ _)

/-- Witness for C2 at a concrete one-class aggregation with
`avgP = 1/2`, `avgR = 1`. -/
theorem C2_f1_formulas_witness :
    aggregate_scores [("A", 1/2)] [("A", 1)] (1/2) 1 1 [("A", 1)]
      = Except.ok ([("A", 1/2), ("Average", 1/2)], [("A", 1), ("Average", 1)],
          [("Average", 2/3), ("A", 2/3)]) ∧
    (([("A", (1 : ℚ)/2)].map Prod.fst).Nodup) ∧
    lookupFirst "Average" [("Average", (2 : ℚ)/3), ("A", 2/3)]
      = some (if (1 : ℚ)/2 / (1 : ℚ) + (1 : ℚ) / (1 : ℚ) > 0 then
          2 * ((1 : ℚ)/2 / (1 : ℚ)) * ((1 : ℚ) / (1 : ℚ))
            / ((1 : ℚ)/2 / (1 : ℚ) + (1 : ℚ) / (1 : ℚ))
        else 0) := by
  have hok : aggregate_scores [("A", 1/2)] [("A", 1)] (1/2) 1 1 [("A", 1)]
      = Except.ok ([("A", 1/2), ("Average", 1/2)], [("A", 1), ("Average", 1)],
          [("Average", 2/3), ("A", 2/3)]) := by
    norm_num [aggregate_scores, divideByClassCounts, f1Loop, dictInsert, lookupFirst,
      List.foldlM_cons, List.foldlM_nil]
    decide
  have hnd : (([("A", (1 : ℚ)/2)].map Prod.fst).Nodup) := by simp
  refine ⟨hok, hnd, ?_⟩
  have h2 := (C2_f1_formulas [("A", 1/2)] [("A", 1)] (1/2) 1 1 [("A", 1)]
    [("A", 1/2), ("Average", 1/2)] [("A", 1), ("Average", 1)]
    [("Average", 2/3), ("A", 2/3)] hok hnd).2
  simpa using h2

/-- Counterexample to C2 as stated: at `avgP = 1/2`, `avgR = 1` the
returned overall ("Average") F1 is `2/3 = 2*avgP*avgR/(avgP+avgR)` — the
standard formula — and not the claimed precision-squared value
`2*avgP*avgP/(avgP+avgR) = 1/3`. -/
theorem C2_overall_f1_cex :
    aggregate_scores [("A", 1/2)] [("A", 1)] (1/2) 1 1 [("A", 1)]
      = Except.ok ([("A", 1/2), ("Average", 1/2)], [("A", 1), ("Average", 1)],
          [("Average", 2/3), ("A", 2/3)]) ∧
    lookupFirst "Average" [("Average", (2 : ℚ)/3), ("A", 2/3)] = some (2/3) ∧
    ((2 : ℚ)/3) ≠ 2 * ((1 : ℚ)/2) * ((1 : ℚ)/2) / ((1 : ℚ)/2 + 1) := by
  refine ⟨?_, by simp [lookupFirst], by norm_num⟩
  norm_num [aggregate_scores, divideByClassCounts, f1Loop, dictInsert, lookupFirst,
    List.foldlM_cons, List.foldlM_nil]
  decide

theorem roundHalfEvenInt_intCast (z : ℤ) : roundHalfEvenInt (z : ℝ) = z := by
  unfold roundHalfEvenInt
  rw [Int.floor_intCast]
  rw [if_pos]
  norm_num

theorem roundHalfEvenInt_small {x : ℝ} (h0 : 0 ≤ x) (h : x < 1/2) :
    roundHalfEvenInt x = 0 := by
  have hf : ⌊x⌋ = 0 := Int.floor_eq_zero_iff.2 ⟨h0, by linarith⟩
  unfold roundHalfEvenInt
  rw [hf]
  rw [if_pos]
  push_cast
  linarith

theorem pyRound3_div1000 (z : ℤ) : pyRound3 ((z : ℝ) / 1000) = (z : ℝ) / 1000 := by
  unfold pyRound3
  rw [show (1000 : ℝ) * ((z : ℝ) / 1000) = (z : ℝ) by ring, roundHalfEvenInt_intCast]

theorem pyRound3_small {x : ℝ} (h0 : 0 ≤ x) (h : x < 1/2000) : pyRound3 x = 0 := by
  unfold pyRound3
  rw [roundHalfEvenInt_small (by linarith) (by linarith)]
  simp

/-- C9: the value binned by `compute_D3` is `sqrt(round(area, 3))` where
`area` is the Heron's-formula area computed from the 3-decimal-rounded
side lengths and rounded semi-perimeter and itself rounded to 3 decimals
— and it differs from the exact square root of the exact triangle area:
at the right triangle with legs 0.003 and 0.004 the rounded pipeline bins
`sqrt(round(0.000006, 3)) = sqrt(0) = 0`, while the exact value
`sqrt(0.000006)` is positive. -/
theorem C9_d3_rounding :
    (∀ A B C : Vec3,
      d3SampleValue A B C = Real.sqrt (pyRound3 (d3RoundedHeronArea A B C))) ∧
    d3SampleValue ⟨0, 0, 0⟩ ⟨3/1000, 0, 0⟩ ⟨0, 4/1000, 0⟩ = 0 ∧
    Real.sqrt (exactTriangleArea ⟨0, 0, 0⟩ ⟨3/1000, 0, 0⟩ ⟨0, 4/1000, 0⟩) ≠ 0 ∧
    d3SampleValue ⟨0, 0, 0⟩ ⟨3/1000, 0, 0⟩ ⟨0, 4/1000, 0⟩
      ≠ Real.sqrt (exactTriangleArea ⟨0, 0, 0⟩ ⟨3/1000, 0, 0⟩ ⟨0, 4/1000, 0⟩) := by
  have hBC : npNorm ⟨3/1000, 0, 0⟩ ⟨0, 4/1000, 0⟩ = 5/1000 := by
    unfold npNorm
    rw [show ((3/1000 : ℝ) - 0) ^ 2 + ((0 : ℝ) - 4/1000) ^ 2 + ((0 : ℝ) - 0) ^ 2
      = (5/1000) ^ 2 by norm_num]
    exact Real.sqrt_sq (by norm_num)
  have hAC : npNorm ⟨0, 0, 0⟩ ⟨0, 4/1000, 0⟩ = 4/1000 := by
    unfold npNorm
    rw [show ((0 : ℝ) - 0) ^ 2 + ((0 : ℝ) - 4/1000) ^ 2 + ((0 : ℝ) - 0) ^ 2
      = (4/1000) ^ 2 by norm_num]
    exact Real.sqrt_sq (by norm_num)
  have hAB : npNorm ⟨0, 0, 0⟩ ⟨3/1000, 0, 0⟩ = 3/1000 := by
    unfold npNorm
    rw [show ((0 : ℝ) - 3/1000) ^ 2 + ((0 : ℝ) - 0) ^ 2 + ((0 : ℝ) - 0) ^ 2
      = (3/1000) ^ 2 by norm_num]
    exact Real.sqrt_sq (by norm_num)
  have ha : pyRound3 (5/1000 : ℝ) = 5/1000 := by
    have := pyRound3_div1000 5
    push_cast at this
    exact this
  have hb : pyRound3 (4/1000 : ℝ) = 4/1000 := by
    have := pyRound3_div1000 4
    push_cast at this
    exact this
  have hc : pyRound3 (3/1000 : ℝ) = 3/1000 := by
    have := pyRound3_div1000 3
    push_cast at this
    exact this
  have hs : pyRound3 ((5/1000 + 4/1000 + 3/1000 : ℝ) / 2) = 6/1000 := by
    rw [show ((5/1000 + 4/1000 + 3/1000 : ℝ)) / 2 = ((6 : ℤ) : ℝ) / 1000 by norm_num]
    rw [pyRound3_div1000]
    norm_num
  have hheron : Real.sqrt |(6/1000 : ℝ) * (6/1000 - 5/1000) * (6/1000 - 4/1000)
      * (6/1000 - 3/1000)| = 6/1000000 := by
    rw [show |(6/1000 : ℝ) * (6/1000 - 5/1000) * (6/1000 - 4/1000) * (6/1000 - 3/1000)|
      = (6/1000000 : ℝ) ^ 2 by rw [abs_of_nonneg (by norm_num)]; norm_num]
    exact Real.sqrt_sq (by norm_num)
  have hzero : d3SampleValue ⟨0, 0, 0⟩ ⟨3/1000, 0, 0⟩ ⟨0, 4/1000, 0⟩ = 0 := by
    unfold d3SampleValue
    rw [hBC, hAC, hAB, ha, hb, hc]
    dsimp only
    rw [hs, hheron, pyRound3_small (by norm_num) (by norm_num), Real.sqrt_zero]
  have hexact : exactTriangleArea ⟨0, 0, 0⟩ ⟨3/1000, 0, 0⟩ ⟨0, 4/1000, 0⟩
      = 6/1000000 := by
    unfold exactTriangleArea
    rw [show ((0 : ℝ) - 0) * ((0 : ℝ) - 0) - ((0 : ℝ) - 0) * ((4/1000 : ℝ) - 0) = 0
      by norm_num]
    rw [show ((0 : ℝ) - 0) * ((0 : ℝ) - 0) - ((3/1000 : ℝ) - 0) * ((0 : ℝ) - 0) = 0
      by norm_num]
    rw [show ((3/1000 : ℝ) - 0) * ((4/1000 : ℝ) - 0) - ((0 : ℝ) - 0) * ((0 : ℝ) - 0)
      = 12/1000000 by norm_num]
    rw [show (0 : ℝ) ^ 2 + (0 : ℝ) ^ 2 + (12/1000000 : ℝ) ^ 2 = (12/1000000 : ℝ) ^ 2
      by norm_num]
    rw [Real.sqrt_sq (by norm_num)]
    norm_num
  have hpos : Real.sqrt (exactTriangleArea ⟨0, 0, 0⟩ ⟨3/1000, 0, 0⟩ ⟨0, 4/1000, 0⟩)
      ≠ 0 := by
    rw [hexact]
    exact ne_of_gt (Real.sqrt_pos.2 (by norm_num))
  refine ⟨fun A B C => rfl, hzero, hpos, ?_⟩
  rw [hzero]
  exact fun h => hpos h.symm
